import Mathlib

/-!
Shallow embedding of the typing-session core of the `typa` repository
(src/app.rs, src/utils/strings.rs) together with theorems settling the
frozen claims about its specification.

Rust `String`/`&str` values are modelled as `List Char` (the code always
iterates `chars()`; byte-offset arithmetic in the source only converts
char counts to byte counts before slicing, which is the identity in the
char model).  `HashMap<usize, usize>` is an association list,
`HashSet<usize>` a list of keys.  `f64` time values are modelled as `ℚ`
(every arithmetic operation on them in the embedded code is field
arithmetic; `final_consistency`, which needs `sqrt`, is the one field
left out of the model and no claim mentions it).  `Instant` is replaced
by explicit `now : ℚ` parameters.  The word generator and the
persistence layer are external collaborators: generator output enters as
an explicit parameter, `history::record_test` (which takes `&App` and
cannot mutate the session) is dropped.
-/

namespace Typa

/-- Null byte: the sentinel the source bakes into `aligned_input` for missed
positions. -/
def nullChar : Char := '\x00'

/-! ### src/utils/strings.rs -/

/-- Typographic class of quotation marks (`is_quote` in strings.rs). -/
def is_quote (c : Char) : Bool :=
  c == '"' || c == '“' || c == '”' || c == '„' ||
  c == '\'' || c == '’' || c == '‘' || c == 'ʼ' || c == '᾽'

/-- Typographic class of dash/hyphen variants (`is_dash` in strings.rs). -/
def is_dash (c : Char) : Bool :=
  c == '-' || c == '–' || c == '—' || c == '‐'

/-- Typographic class of comma-like marks (`is_comma_like` in strings.rs). -/
def is_comma_like (c : Char) : Bool :=
  c == ',' || c == '‚'

/-- Visual-equivalence relation on characters
(`are_characters_visually_equal` in strings.rs). -/
def are_characters_visually_equal (c1 c2 : Char) : Bool :=
  c1 == c2
    || (is_quote c1 && is_quote c2)
    || (is_dash c1 && is_dash c2)
    || (is_comma_like c1 && is_comma_like c2)

/-! ### String helpers shared by the embedded code -/

/-- Rust's `str::split(' ')`: splits at every space, keeping empty pieces,
and yields at least one piece. -/
def splitSpaces : List Char → List (List Char)
  | [] => [[]]
  | c :: rest =>
    let r := splitSpaces rest
    if c == ' ' then [] :: r
    else
      match r with
      | w :: ws => (c :: w) :: ws
      | [] => [[c]]

/-- Rust's `Vec::join(" ")` on word texts. -/
def joinSpaces : List (List Char) → List Char
  | [] => []
  | [w] => w
  | w :: ws => w ++ ' ' :: joinSpaces ws

/-- Association-list lookup standing in for `HashMap::get`. -/
def mmGet (m : List (Nat × Nat)) (k : Nat) : Option Nat :=
  (m.find? (fun p => p.1 == k)).map (fun p => p.2)

/-- Lookup with a default, for the `if let Some(&missed) = …` pattern. -/
def mmGetD (m : List (Nat × Nat)) (k : Nat) (d : Nat) : Nat :=
  (mmGet m k).getD d

/-- Association-list insert standing in for `HashMap::insert` (replaces any
existing binding). -/
def mmInsert (m : List (Nat × Nat)) (k v : Nat) : List (Nat × Nat) :=
  (k, v) :: m.filter (fun p => p.1 != k)

/-- Association-list removal standing in for `HashMap::remove`. -/
def mmRemove (m : List (Nat × Nat)) (k : Nat) : List (Nat × Nat) :=
  m.filter (fun p => p.1 != k)

/-! ### The Alignment Builder (`App::sync_display_text`, app.rs 638-694) -/

/-- Output triple of the alignment builder: `display_string`, `display_mask`
and `aligned_input`. -/
structure SyncOut where
  display : List Char
  mask : List Bool
  aligned : List Char
deriving Repr, DecidableEq

/-- Main loop of `sync_display_text`: walks the clean (target) characters,
consuming input characters in lockstep.  At a target space it first drains
input characters typed before the space as extras (mask = true), then, if the
input supplies the space, injects `missed_chars[word_idx]` null sentinels into
the aligned buffer before the space. -/
def syncLoop (missed : List (Nat × Nat)) :
    List Char → List Char → Nat → SyncOut
  | [], _, _ => ⟨[], [], []⟩
  | clean_char :: clean, input, word_idx =>
    if clean_char == ' ' then
      let extras := input.takeWhile (fun c => c != ' ')
      let rest := input.dropWhile (fun c => c != ' ')
      match rest with
      | _ :: rest' =>
        let slots := List.replicate (mmGetD missed word_idx 0) nullChar
        let t := syncLoop missed clean rest' (word_idx + 1)
        ⟨extras ++ ' ' :: t.display,
         extras.map (fun _ => true) ++ false :: t.mask,
         extras ++ slots ++ ' ' :: t.aligned⟩
      | [] =>
        let t := syncLoop missed clean [] word_idx
        ⟨extras ++ ' ' :: t.display,
         extras.map (fun _ => true) ++ false :: t.mask,
         extras ++ t.aligned⟩
    else
      match input with
      | input_c :: input_rest =>
        if input_c != ' ' then
          let t := syncLoop missed clean input_rest word_idx
          ⟨clean_char :: t.display, false :: t.mask, input_c :: t.aligned⟩
        else
          let t := syncLoop missed clean input word_idx
          ⟨clean_char :: t.display, false :: t.mask, t.aligned⟩
      | [] =>
        let t := syncLoop missed clean [] word_idx
        ⟨clean_char :: t.display, false :: t.mask, t.aligned⟩

/-- Pure core of `App::sync_display_text`: rebuilds the display buffer, the
extra-character mask and the aligned input from the target string, the raw
input and the missed-characters map. -/
def sync_display_text (clean input : List Char) (missed : List (Nat × Nat)) :
    SyncOut :=
  syncLoop missed clean input 0

/-! ### Word Scoring (`App::calculate_custom_stats_for_slice`, app.rs 856-935) -/

/-- One scored position: the display character, whether the mask marks it as
an extra, and the typed character (`input_chars.get(k).unwrap_or('\0')`). -/
structure SlicePos where
  target : Char
  is_extra : Bool
  typed : Char
deriving Repr, DecidableEq

/-- Builds the per-position view the scoring loop iterates over: one entry
per display character, with the mask defaulting to `false` and the input
defaulting to the null sentinel past their ends. -/
def slicePositions : List Char → List Bool → List Char → List SlicePos
  | [], _, _ => []
  | d :: ds, m, inp =>
    ⟨d, m.headD false, inp.headD nullChar⟩ :: slicePositions ds m.tail inp.tail

/-- The six counters returned by `calculate_custom_stats_for_slice`. -/
structure CharStats where
  acc_correct_score : Int
  acc_incorrect_score : Int
  raw_cor : Nat
  raw_inc : Nat
  raw_ext : Nat
  raw_mis : Nat
deriving Repr, DecidableEq

def zeroStats : CharStats := ⟨0, 0, 0, 0, 0, 0⟩

def statsAdd (a b : CharStats) : CharStats :=
  ⟨a.acc_correct_score + b.acc_correct_score,
   a.acc_incorrect_score + b.acc_incorrect_score,
   a.raw_cor + b.raw_cor, a.raw_inc + b.raw_inc,
   a.raw_ext + b.raw_ext, a.raw_mis + b.raw_mis⟩

/-- Word separator: a non-extra space character, exactly the condition that
ends the `word_end` scan in the source. -/
def isWordSep (p : SlicePos) : Bool :=
  !p.is_extra && p.target == ' '

/-- First pass of the scoring loop: does this position set `word_has_error`? -/
def posFault (p : SlicePos) : Bool :=
  if p.is_extra then true
  else if p.typed == nullChar then true
  else !are_characters_visually_equal p.typed p.target

/-- Second pass of the scoring loop: the counter deltas contributed by one
in-word position, given the word's `word_has_error` flag. -/
def posDelta (word_has_error : Bool) (p : SlicePos) : CharStats :=
  if p.is_extra then ⟨0, 1, 0, 0, 1, 0⟩
  else if p.typed == nullChar then ⟨-1, 0, 0, 0, 0, 1⟩
  else if !are_characters_visually_equal p.typed p.target then ⟨-1, 1, 0, 1, 0, 0⟩
  else if !word_has_error then ⟨0, 0, 1, 0, 0, 0⟩
  else zeroStats

/-- Contribution of a word's trailing (non-extra) space. -/
def sepDelta (word_has_error : Bool) : CharStats :=
  if word_has_error then ⟨-1, 1, 0, 0, 0, 0⟩ else ⟨0, 0, 1, 0, 0, 0⟩

/-- Scores one word (run of positions containing no separator), plus its
trailing separator when present: the two-pass structure of the source's
outer loop body. -/
def wordStats (w : List SlicePos) (hasSep : Bool) : CharStats :=
  let he := w.any posFault
  let inner := w.foldl (fun acc p => statsAdd acc (posDelta he p)) zeroStats
  if hasSep then statsAdd inner (sepDelta he) else inner

/-- Outer loop of `calculate_custom_stats_for_slice`, written with explicit
fuel (one unit per loop iteration; each iteration consumes at least the
word-terminating separator, so `length + 1` units always suffice):
repeatedly takes the positions up to the next non-extra space, scores them
as one word, and continues after the separator. -/
def statsLoopF : Nat → List SlicePos → CharStats
  | 0, _ => zeroStats
  | fuel + 1, ps =>
    let word := ps.takeWhile (fun p => !isWordSep p)
    match ps.dropWhile (fun p => !isWordSep p) with
    | [] => wordStats word false
    | _ :: rest => statsAdd (wordStats word true) (statsLoopF fuel rest)

/-- Outer loop of `calculate_custom_stats_for_slice` with its fuel filled
in. -/
def statsLoop (ps : List SlicePos) : CharStats :=
  statsLoopF (ps.length + 1) ps

/-- `App::calculate_custom_stats_for_slice`: the signed accuracy scores
(the correct one pre-charged with one point per non-extra mask entry) and
the four raw counters for a slice of the aligned buffers. -/
def calculate_custom_stats_for_slice
    (input_chars display_str : List Char) (mask : List Bool) : CharStats :=
  statsAdd ⟨(mask.countP (fun m => !m) : Int), 0, 0, 0, 0, 0⟩
    (statsLoop (slicePositions display_str mask input_chars))

/-! ### Claim-side characterization of the word scorer

These definitions follow the words of the specification (§4.3 and claim
C2), to be compared with the source-translated scorer above: a position is
classified as exactly one of extra / missed / incorrect / matching, a word
is faulted when it contains any of the first three, and the per-word
counter contributions are stated directly as counts of those classes. -/

/-- Claim-side class: an extra (mask = true) position. -/
def specIsExtra (p : SlicePos) : Bool := p.is_extra

/-- Claim-side class: a missing-sentinel position. -/
def specIsMissed (p : SlicePos) : Bool :=
  !p.is_extra && p.typed == nullChar

/-- Claim-side class: a visually-unequal typed/target pair. -/
def specIsIncorrect (p : SlicePos) : Bool :=
  !p.is_extra && p.typed != nullChar &&
    !are_characters_visually_equal p.typed p.target

/-- Claim-side class: a visually-equal, non-extra, non-sentinel position. -/
def specIsMatch (p : SlicePos) : Bool :=
  !p.is_extra && p.typed != nullChar &&
    are_characters_visually_equal p.typed p.target

/-- Claim-side word fault: some position of the word is extra, a missing
sentinel, or visually unequal. -/
def specWordFault (w : List SlicePos) : Bool :=
  !(w.countP specIsExtra + w.countP specIsMissed + w.countP specIsIncorrect == 0)

/-- Claim-side statement of one word's contribution to the six counters:
each extra position adds one raw extra and one signed incorrect; each
missing sentinel adds one raw missed and subtracts one signed correct; each
visually-unequal position adds one raw incorrect, subtracts one signed
correct and adds one signed incorrect; matching positions add raw correct
only when the whole word is fault-free; a present trailing separator adds
one raw correct for a fault-free word and otherwise moves one signed unit
from correct to incorrect. -/
def specWordStats (w : List SlicePos) (hasSep : Bool) : CharStats :=
  let ext := w.countP specIsExtra
  let mis := w.countP specIsMissed
  let inc := w.countP specIsIncorrect
  let mat := w.countP specIsMatch
  let fault := specWordFault w
  ⟨-(mis : Int) - (inc : Int) +
      (if hasSep then (if fault then -1 else 0) else 0),
   (ext : Int) + (inc : Int) +
      (if hasSep then (if fault then 1 else 0) else 0),
   (if fault then 0 else mat) + (if hasSep && !fault then 1 else 0),
   inc, ext, mis⟩

/-- Claim-side word decomposition (with fuel, like `statsLoopF`): the
maximal runs bounded by non-extra space characters, each tagged with
whether its terminating separator is present in the slice. -/
def specSplitWordsF : Nat → List SlicePos → List (List SlicePos × Bool)
  | 0, _ => []
  | fuel + 1, ps =>
    match ps.dropWhile (fun p => !isWordSep p) with
    | [] => [(ps.takeWhile (fun p => !isWordSep p), false)]
    | _ :: rest =>
      (ps.takeWhile (fun p => !isWordSep p), true) :: specSplitWordsF fuel rest

/-- Claim-side word decomposition with its fuel filled in. -/
def specSplitWords (ps : List SlicePos) : List (List SlicePos × Bool) :=
  specSplitWordsF (ps.length + 1) ps

/-! ### Data model (src/models.rs) -/

inductive AppState where
  | Waiting
  | Running
  | Finished
deriving Repr, DecidableEq

inductive WordState where
  | Pending
  | Active
  | Typed
deriving Repr, DecidableEq

structure Word where
  text : List Char
  state : WordState
deriving Repr, DecidableEq

/-- Session mode.  `Quote`'s selector payload only picks which quote the
generator loads, so it is dropped from the model. -/
inductive Mode where
  | Time (limit : Nat)
  | Words (n : Nat)
  | Quote
deriving Repr, DecidableEq

/-- Session state of `App` (app.rs).  Fields that belong to the excluded
collaborators (embedded word/quote data, theme, quote bookkeeping,
`should_quit`, the generator handle) are omitted, as is `final_consistency`
(an `f64` standard deviation; no claim mentions it).  `u64::MAX` as the
"no snapshot yet" sentinel of `last_snapshot_second` is modelled as
`Option.none`. -/
structure App where
  state : AppState
  mode : Mode
  show_ui : Bool
  input : List Char
  cursor_idx : Nat
  start_time : Option ℚ
  gross_char_count : Nat
  total_errors_ever : Nat
  processed_word_errors : List Nat
  generated_count : Nat
  scrolled_word_count : Nat
  furthest_word_idx : Nat
  st_correct : Nat
  st_incorrect : Nat
  st_extra : Nat
  st_missed : Nat
  acc_score_correct : Int
  acc_score_incorrect : Int
  uncorrected_errors_scrolled : Nat
  live_correct_keystrokes : Nat
  live_incorrect_keystrokes : Nat
  final_wpm : ℚ
  final_raw_wpm : ℚ
  final_accuracy : ℚ
  final_time : ℚ
  word_stream : List Word
  word_stream_string : List Char
  terminal_width : Nat
  visual_lines : List (List Char)
  display_string : List Char
  display_mask : List Bool
  extra_char_count : Nat
  missed_chars : List (Nat × Nat)
  aligned_input : List Char
  next_word_index : Nat
  wpm_history : List (ℚ × ℚ)
  raw_wpm_history : List (ℚ × ℚ)
  errors_history : List (ℚ × ℚ)
  last_snapshot_second : Option Nat
  prev_incorrect_keystrokes : Nat
deriving Repr, DecidableEq

/-! ### Viewport/Wrap Manager (app.rs 696-777) -/

/-- One step of the greedy word-wrap loop in `wrap_into_lines`. -/
def wrapStep (width : Nat) (st : List (List Char) × List Char × Nat)
    (word : List Char) : List (List Char) × List Char × Nat :=
  let lines := st.1
  let current_line := st.2.1
  let current_width := st.2.2
  let word_len := word.length
  let space_before := if current_width == 0 then 0 else 1
  if current_width + space_before + word_len ≤ width then
    if current_width > 0 then
      (lines, current_line ++ ' ' :: word, current_width + 1 + word_len)
    else
      (lines, current_line ++ word, current_width + word_len)
  else
    let lines' := if current_line.isEmpty then lines else lines ++ [current_line]
    (lines', word, word_len)

/-- `App::wrap_into_lines`: greedy word wrap of a display string into lines
of at most `width` characters (a word wider than `width` still gets its own
line). -/
def wrap_into_lines (text : List Char) (width : Nat) : List (List Char) :=
  let st := (splitSpaces text).foldl (wrapStep width) ([], [], 0)
  if st.2.1.isEmpty then st.1 else st.1 ++ [st.2.1]

/-- Shared walk of `line_idx_for_cursor` and `check_scroll_trigger`: the
index of the first line whose `length + 1` span still contains
`cursor_pos`, or `none` when the walk runs past every line. -/
def lineWalk : List (List Char) → Nat → Nat → Nat → Option Nat
  | [], _, _, _ => none
  | l :: ls, cursor_pos, running, idx =>
    let line_len := l.length + 1
    if cursor_pos < running + line_len then some idx
    else lineWalk ls cursor_pos (running + line_len) (idx + 1)

/-- `App::line_idx_for_cursor` (falls back to the last line index). -/
def line_idx_for_cursor (lines : List (List Char)) (cursor_pos : Nat) : Nat :=
  (lineWalk lines cursor_pos 0 0).getD (if lines.isEmpty then 0 else lines.length - 1)

/-- Cursor line index as computed inside `check_scroll_trigger` (its loop
leaves the index at 0 when the walk runs past every line). -/
def scrollLineIndex (lines : List (List Char)) (aligned_len : Nat) : Nat :=
  (lineWalk lines aligned_len 0 0).getD 0

/-- `App::recalculate_lines`. -/
def recalculate_lines (s : App) : App :=
  let layout_width := s.terminal_width * 80 / 100
  let safe_width := layout_width - 2
  { s with visual_lines := wrap_into_lines s.display_string safe_width }

/-- State-level `App::sync_display_text`: rebuilds the three parallel
buffers, recounts the extras, mirrors the cursor and rewraps. -/
def syncDisplayTextS (s : App) : App :=
  let t := sync_display_text s.word_stream_string s.input s.missed_chars
  recalculate_lines
    { s with display_string := t.display, display_mask := t.mask,
             aligned_input := t.aligned,
             extra_char_count := t.mask.countP (fun x => x),
             cursor_idx := t.aligned.length }

/-- `App::will_cause_visual_wrap`: speculatively appends the candidate
character to the display string and compares the cursor's line index before
and after. -/
def will_cause_visual_wrap (s : App) (extra_char : Char) (is_extra : Bool) :
    Bool :=
  let layout_width := s.terminal_width * 80 / 100
  let candidate_width := if is_extra then layout_width else layout_width - 2
  let current_line_idx := line_idx_for_cursor s.visual_lines s.aligned_input.length
  let candidate_display := s.display_string ++ [extra_char]
  let candidate_lines := wrap_into_lines candidate_display candidate_width
  let candidate_line_idx :=
    line_idx_for_cursor candidate_lines (s.aligned_input.length + 1)
  if is_extra then decide (candidate_line_idx > current_line_idx)
  else decide (candidate_line_idx ≥ 3)

/-! ### Word-level helpers (app.rs 442-475, 571-636) -/

/-- `App::words_visually_equal`: character-by-character visual equality,
including length. -/
def words_visually_equal : List Char → List Char → Bool
  | [], [] => true
  | a :: t, b :: g => are_characters_visually_equal a b && words_visually_equal t g
  | _, _ => false

/-- Word index of the in-progress word: `input.split(' ').len() - 1`
(saturating). -/
def currentWordIdx (input : List Char) : Nat :=
  (splitSpaces input).length - 1

/-- The in-progress word: `input.split(' ').last().unwrap_or("")`. -/
def currentUserWord (input : List Char) : List Char :=
  (splitSpaces input).getLastD []

/-- Sets the state of the word at the given index, a no-op out of range
(the source guards every such write with an index check). -/
def modifyWordState : List Word → Nat → WordState → List Word
  | [], _, _ => []
  | w :: ws, 0, st => { w with state := st } :: ws
  | w :: ws, n + 1, st => w :: modifyWordState ws n st

/-- `App::update_stream_string`. -/
def update_stream_string (s : App) : App :=
  { s with word_stream_string := joinSpaces (s.word_stream.map (fun w => w.text)) }

/-- `App::handle_space_press`: charges the one-time structural word error
(1 for a word-level visual mismatch plus the length overrun) gated by
`processed_word_errors`, and records the shortfall of a short word in
`missed_chars`. -/
def handle_space_press (word_idx : Nat) (user_current_word : List Char)
    (s : App) : App :=
  let target_word := (s.word_stream.getD word_idx ⟨[], WordState.Pending⟩).text
  let is_word_error := !words_visually_equal user_current_word target_word
  let user_chars := user_current_word.length
  let target_chars := target_word.length
  let extra_len_penalty := user_chars - target_chars
  let s :=
    if !(s.processed_word_errors.contains word_idx) &&
        (is_word_error || extra_len_penalty > 0) then
      let word_penalty := if is_word_error then 1 else 0
      { s with total_errors_ever := s.total_errors_ever + word_penalty + extra_len_penalty,
               processed_word_errors := word_idx :: s.processed_word_errors }
    else s
  if user_chars < target_chars then
    { s with missed_chars := mmInsert s.missed_chars word_idx (target_chars - user_chars) }
  else s

/-- `App::add_one_word`, with the generator's answer passed in as a
parameter (`None` models the generator returning nothing). -/
def add_one_word (gen : Option (List Word × Nat)) (s : App) : App :=
  match gen with
  | some (new_words, new_next_index) =>
    let s := { s with word_stream := s.word_stream ++ new_words,
                      next_word_index := new_next_index }
    let s :=
      match s.mode with
      | Mode.Words _ => { s with generated_count := s.generated_count + new_words.length }
      | _ => s
    update_stream_string s
  | none => s

/-- `App::on_word_finished`: marks the finished word `Typed`, the next one
`Active`, bumps the furthest-word marker and tops the stream up when fewer
than 100 pending words remain. -/
def on_word_finished (gen : Option (List Word × Nat)) (s : App) : App :=
  let segments := splitSpaces s.input
  let finished_idx := segments.length - 2
  let s := { s with word_stream := modifyWordState s.word_stream finished_idx WordState.Typed }
  let next_idx := finished_idx + 1
  let s := { s with word_stream := modifyWordState s.word_stream next_idx WordState.Active }
  if finished_idx ≥ s.furthest_word_idx then
    let s := { s with furthest_word_idx := finished_idx + 1 }
    let pending_count : Nat :=
      (s.word_stream.drop next_idx).countP (fun w => w.state == WordState.Pending)
    if pending_count < 100 then add_one_word gen s else s
  else s

/-! ### Session Metrics (app.rs 242-317, 499-569) -/

/-- Error check on the in-progress word used by
`calculate_live_correct_chars`: any typed character that runs past the
target or differs visually from it. -/
def currentWordHasError : List Char → List Char → Bool
  | [], _ => false
  | _ :: _, [] => true
  | c :: cs, t :: ts =>
    !are_characters_visually_equal c t || currentWordHasError cs ts

/-- `App::calculate_live_correct_chars`: correct characters of all completed
words (scored through the slice scorer) plus the in-progress word in full
when it is entirely fault-free. -/
def calculate_live_correct_chars (s : App) : Nat :=
  let ends_with_space := s.aligned_input.getLast? == some ' '
  let completed_len :=
    if ends_with_space || s.aligned_input.isEmpty then s.aligned_input.length
    else
      match s.aligned_input.reverse.findIdx? (fun c => c == ' ') with
      | some r => s.aligned_input.length - r
      | none => 0
  let completed_aligned := s.aligned_input.take completed_len
  let completed_display := s.display_string.take completed_len
  let completed_mask := s.display_mask.take completed_len
  let stats := calculate_custom_stats_for_slice completed_aligned completed_display completed_mask
  let current_word_input :=
    if ends_with_space || s.aligned_input.isEmpty then []
    else currentUserWord s.input
  let current_word_correct_chars :=
    if !current_word_input.isEmpty then
      match s.word_stream.get? (currentWordIdx s.input) with
      | some word =>
        if currentWordHasError current_word_input word.text then 0
        else current_word_input.length
      | none => 0
    else 0
  stats.raw_cor + current_word_correct_chars

/-- `App::push_snapshot`: appends one `(elapsed, value)` point to each of
the three history series (no-op for a non-positive elapsed time). -/
def push_snapshot (elapsed_secs : ℚ) (s : App) : App :=
  if elapsed_secs ≤ 0 then s
  else
    let total_correct_chars := s.st_correct + calculate_live_correct_chars s
    let raw_wpm := ((s.gross_char_count : ℚ) / 5) * (60 / elapsed_secs)
    let net_wpm := ((total_correct_chars : ℚ) / 5) * (60 / elapsed_secs)
    let errors_this_second :=
      ((s.live_incorrect_keystrokes - s.prev_incorrect_keystrokes : Nat) : ℚ)
    { s with prev_incorrect_keystrokes := s.live_incorrect_keystrokes,
             wpm_history := s.wpm_history ++ [(elapsed_secs, net_wpm)],
             raw_wpm_history := s.raw_wpm_history ++ [(elapsed_secs, raw_wpm)],
             errors_history := s.errors_history ++ [(elapsed_secs, errors_this_second)] }

/-- Floored whole-second count of the elapsed time
(`elapsed_secs.floor() as u64`; the `as u64` conversion clamps negatives
to zero exactly as `Int.toNat` does). -/
def snapshotSecond (now start : ℚ) : Nat :=
  (now - start).floor.toNat

/-- `App::record_snapshot_if_needed`: on a running session, records one
snapshot per newly completed integer second of elapsed time. -/
def record_snapshot_if_needed (now : ℚ) (s : App) : App :=
  if s.state != AppState.Running then s
  else
    match s.start_time with
    | none => s
    | some start =>
      let current_second := snapshotSecond now start
      let advanced :=
        match s.last_snapshot_second with
        | none => true
        | some l => decide (current_second > l)
      if current_second ≥ 1 && advanced then
        push_snapshot (current_second : ℚ)
          { s with last_snapshot_second := some current_second }
      else s

/-- Elapsed duration used by `end_test`
(`start_time.map(|t| t.elapsed()).unwrap_or(1.0)`). -/
def endTestDuration (now : ℚ) (s : App) : ℚ :=
  match s.start_time with
  | some t => now - t
  | none => 1

/-- Elapsed-seconds value of the last integer-second snapshot, 0 when none
was recorded (the `u64::MAX` branch of `end_test`). -/
def lastFullSecond (s : App) : ℚ :=
  match s.last_snapshot_second with
  | none => 0
  | some l => (l : ℚ)

/-- `App::end_test` (the persistence call and the `f64` consistency figure
are outside the model): finishes the session, truncates the display pair in
time mode, computes the final figures and records the final partial
snapshot when it is at least 0.495s past the last full-second one. -/
def end_test (now : ℚ) (s0 : App) : App :=
  let duration_secs := endTestDuration now s0
  let last_full := lastFullSecond s0
  let s := { s0 with state := AppState.Finished }
  let s :=
    match s.mode with
    | Mode.Time _ =>
      let typed_len := s.aligned_input.length
      if typed_len < s.display_string.length then
        { s with display_string := s.display_string.take typed_len,
                 display_mask := s.display_mask.take typed_len }
      else s
    | _ => s
  let total_correct_chars := s.st_correct + calculate_live_correct_chars s
  let total_keystrokes := s.live_correct_keystrokes + s.live_incorrect_keystrokes
  let s :=
    { s with final_raw_wpm := ((s.gross_char_count : ℚ) / 5) * (60 / duration_secs),
             final_wpm := ((total_correct_chars : ℚ) / 5) * (60 / duration_secs),
             final_accuracy :=
               if total_keystrokes > 0 then
                 ((s.live_correct_keystrokes : ℚ) / (total_keystrokes : ℚ)) * 100
               else 0,
             final_time := duration_secs,
             show_ui := true }
  let remaining := duration_secs - last_full
  if (0.495 : ℚ) ≤ remaining then push_snapshot duration_secs s else s

/-! ### Completion check and Scroll Evictor (app.rs 477-497, 763-854) -/

/-- `App::check_test_completion`: in word/quote mode, ends the test once the
non-extra aligned length covers the target and the last input word equals
the last target word byte-for-byte. -/
def check_test_completion (now : ℚ) (s : App) : App :=
  match s.mode with
  | Mode.Words _ | Mode.Quote =>
    let effective_len := s.aligned_input.length - s.extra_char_count
    if effective_len < s.word_stream_string.length then s
    else
      let target_words := splitSpaces s.word_stream_string
      let input_words := splitSpaces s.input
      match target_words.getLast? with
      | some last_target_word =>
        let last_word_index := target_words.length - 1
        let last_input_word := input_words.getD last_word_index []
        if last_input_word = last_target_word then end_test now s else s
      | none => s
  | _ => s

/-- Visual length of the evicted chunk: the first visual line plus the
separating space that follows it in the display string. -/
def evictVisualCount (s : App) : Nat :=
  let visual_char_count := (s.visual_lines.headD []).length
  if s.display_string.length > visual_char_count &&
      s.display_string.getD visual_char_count nullChar == ' ' then
    visual_char_count + 1
  else visual_char_count

/-- The evicted prefix of `aligned_input` (capped at its length). -/
def evictAlignedChunk (s : App) : List Char :=
  s.aligned_input.take (min (evictVisualCount s) s.aligned_input.length)

/-- Count of real characters the source drains from `input`: the non-null
characters of the evicted aligned chunk. -/
def evictCleanCount (s : App) : Nat :=
  (evictAlignedChunk s).countP (fun c => c != nullChar)

/-- Count of non-extra display positions evicted: what the source shortens
`word_stream_string` by. -/
def evictRealCount (s : App) : Nat :=
  (s.display_mask.take (evictVisualCount s)).countP (fun m => !m)

/-- `App::delete_first_visual_line`: scores the first visual line, folds the
six outputs into the cumulative counters (clamping the signed scores at
zero), retires the scrolled words, remaps the word-keyed maps, drains the
parallel buffers and re-runs the alignment builder. -/
def delete_first_visual_line (s0 : App) : App :=
  if s0.visual_lines.isEmpty then s0
  else
    let chars_to_remove_visual := evictVisualCount s0
    let aligned_chunk := evictAlignedChunk s0
    let display_chunk := s0.display_string.take chars_to_remove_visual
    let mask_chunk := s0.display_mask.take chars_to_remove_visual
    let stats := calculate_custom_stats_for_slice aligned_chunk display_chunk mask_chunk
    let s :=
      { s0 with st_correct := s0.st_correct + stats.raw_cor,
                st_incorrect := s0.st_incorrect + stats.raw_inc,
                st_extra := s0.st_extra + stats.raw_ext,
                st_missed := s0.st_missed + stats.raw_mis,
                acc_score_correct := max (s0.acc_score_correct + stats.acc_correct_score) 0,
                acc_score_incorrect := max (s0.acc_score_incorrect + stats.acc_incorrect_score) 0,
                uncorrected_errors_scrolled :=
                  s0.uncorrected_errors_scrolled + stats.raw_inc + stats.raw_mis + stats.raw_ext }
    let tokens_scrolled := aligned_chunk.countP (fun c => c == ' ')
    let s :=
      if tokens_scrolled > 0 then
        { s with scrolled_word_count := s.scrolled_word_count + tokens_scrolled,
                 word_stream := s.word_stream.drop (min tokens_scrolled s.word_stream.length),
                 furthest_word_idx := s.furthest_word_idx - tokens_scrolled,
                 missed_chars :=
                   (s.missed_chars.filter (fun p => p.1 ≥ tokens_scrolled)).map
                     (fun p => (p.1 - tokens_scrolled, p.2)),
                 processed_word_errors :=
                   (s.processed_word_errors.filter (fun k => k ≥ tokens_scrolled)).map
                     (fun k => k - tokens_scrolled) }
      else s
    let real_chars_removed := evictRealCount s0
    let s :=
      if real_chars_removed > 0 then
        { s with word_stream_string := s.word_stream_string.drop real_chars_removed }
      else s
    let clean_chars_to_remove := evictCleanCount s0
    let s := { s with input := s.input.drop clean_chars_to_remove }
    syncDisplayTextS s

/-- `App::check_scroll_trigger`: evicts the first visual line once the
cursor has reached the third visible line. -/
def check_scroll_trigger (s : App) : App :=
  if scrollLineIndex s.visual_lines s.aligned_input.length ≥ 2 then
    delete_first_visual_line s
  else s

/-! ### Keystroke and backspace handlers (app.rs 319-440) -/

/-- Immediate-correctness check of one keystroke against the current word
(the `is_keystroke_correct` computation of `on_key`): word-level visual
equality for a space, visual equality against the next target character for
anything else, false once the target word is exhausted or the stream has
run out. -/
def is_keystroke_correct (c : Char) (word_stream : List Word)
    (input : List Char) : Bool :=
  let word_idx := currentWordIdx input
  if word_idx < word_stream.length then
    let target_word := (word_stream.getD word_idx ⟨[], WordState.Pending⟩).text
    let user_current_word := currentUserWord input
    if c == ' ' then words_visually_equal user_current_word target_word
    else
      let user_char_count := user_current_word.length
      let target_char_count := target_word.length
      if user_char_count < target_char_count then
        are_characters_visually_equal c (target_word.getD user_char_count nullChar)
      else false
  else false

/-- The Waiting→Running transition at the top of `on_key`. -/
def onKeyStart (now : ℚ) (s : App) : App :=
  if s.state == AppState.Waiting then
    { s with start_time := some now, state := AppState.Running }
  else s

/-- Committed part of `on_key`, after every early-return check has passed:
counts the keystroke, charges the word boundary, appends the character,
re-aligns, scrolls and checks completion. -/
def onKeyCommit (c : Char) (now : ℚ) (gen : Option (List Word × Nat))
    (s : App) : App :=
  let word_idx := currentWordIdx s.input
  let user_current_word := currentUserWord s.input
  let s := { s with show_ui := false, gross_char_count := s.gross_char_count + 1 }
  let keystroke_ok := is_keystroke_correct c s.word_stream s.input
  let s :=
    if keystroke_ok then
      { s with live_correct_keystrokes := s.live_correct_keystrokes + 1 }
    else
      { s with live_incorrect_keystrokes := s.live_incorrect_keystrokes + 1 }
  let s :=
    if !keystroke_ok then { s with total_errors_ever := s.total_errors_ever + 1 }
    else s
  let s :=
    if word_idx < s.word_stream.length && c == ' ' then
      handle_space_press word_idx user_current_word s
    else s
  let s := { s with input := s.input ++ [c] }
  let s := if c == ' ' then on_word_finished gen s else s
  let s := syncDisplayTextS s
  let s := check_scroll_trigger s
  check_test_completion now s

/-- `App::on_key`: the full keystroke handler, with the wall clock and the
generator's answer passed in as parameters. -/
def on_key (c : Char) (now : ℚ) (gen : Option (List Word × Nat))
    (s : App) : App :=
  if s.state == AppState.Finished then s
  else
    let s := onKeyStart now s
    let s := record_snapshot_if_needed now s
    let word_idx := currentWordIdx s.input
    if word_idx < s.word_stream.length then
      let target_word := (s.word_stream.getD word_idx ⟨[], WordState.Pending⟩).text
      let user_current_word := currentUserWord s.input
      if c == ' ' && user_current_word.isEmpty then s
      else
        let limit := target_word.length + 19
        if user_current_word.length ≥ limit && c != ' ' then s
        else if c != ' ' &&
            will_cause_visual_wrap s c
              (user_current_word.length ≥ target_word.length) then s
        else onKeyCommit c now gen s
    else onKeyCommit c now gen s

/-- Index of the most recently completed word when the input ends with a
space: `segments.len() - 2`. -/
def lastCompletedIdx (input : List Char) : Nat :=
  (splitSpaces input).length - 2

/-- The most recently completed typed word. -/
def typedLastWord (input : List Char) : List Char :=
  (splitSpaces input).getD (lastCompletedIdx input) []

/-- Pop phase of `on_backspace` (`self.input.pop()` onward): removes the
last input character, clears the popped word's missed record when the
popped character is a space, and re-aligns; a no-op on empty input. -/
def backspacePop (s : App) : App :=
  match s.input.getLast? with
  | none => s
  | some popped_char =>
    let s := { s with input := s.input.dropLast }
    let s :=
      if popped_char == ' ' then
        { s with missed_chars := mmRemove s.missed_chars (currentWordIdx s.input) }
      else s
    syncDisplayTextS s

/-- `App::on_backspace`: refuses to delete past an exactly-typed word
(raw string equality), otherwise reactivates the previous word when
stepping over a boundary, pops one character, clears the popped word's
missed record and re-aligns. -/
def on_backspace (s : App) : App :=
  if s.state == AppState.Finished then s
  else
    let ends_with_space := s.input.getLast? == some ' '
    let segments := splitSpaces s.input
    let gate :=
      if ends_with_space && segments.length ≥ 2 then
        match s.word_stream.get? (lastCompletedIdx s.input) with
        | some target_word => typedLastWord s.input = target_word.text
        | none => false
      else false
    if gate then s
    else
      let s :=
        if ends_with_space && segments.length ≥ 2 then
          let last_completed_idx := lastCompletedIdx s.input
          let current_idx := last_completed_idx + 1
          let s :=
            if current_idx < s.word_stream.length then
              { s with word_stream := modifyWordState s.word_stream current_idx WordState.Pending }
            else s
          if last_completed_idx < s.word_stream.length then
            { s with word_stream := modifyWordState s.word_stream last_completed_idx WordState.Active }
          else s
        else s
      backspacePop s

/-- Result of `WordGenerator::generate_initial_words`, restricted to the
fields the session keeps (quote bookkeeping is outside the model). -/
structure GenInit where
  word_stream : List Word
  generated_count : Nat
  next_index : Nat
deriving Repr, DecidableEq

/-- `App::generate_initial_words`, with the generator's output passed in. -/
def generate_initial_words (g : GenInit) (s : App) : App :=
  let s := { s with word_stream := g.word_stream,
                    generated_count := g.generated_count,
                    next_word_index := g.next_index }
  syncDisplayTextS (update_stream_string s)

/-- `App::restart_test`: resets every piece of session state — including
the cumulative counters and the snapshot series — and reseeds the word
stream (the persistence call for an abandoned running test is outside the
model). -/
def restart_test (g : GenInit) (s : App) : App :=
  let s :=
    { s with input := [], cursor_idx := 0, missed_chars := [], aligned_input := [],
             start_time := none, state := AppState.Waiting,
             gross_char_count := 0, total_errors_ever := 0,
             processed_word_errors := [], generated_count := 0,
             scrolled_word_count := 0, furthest_word_idx := 0,
             st_correct := 0, st_incorrect := 0, st_extra := 0, st_missed := 0,
             acc_score_correct := 0, acc_score_incorrect := 0,
             uncorrected_errors_scrolled := 0,
             live_correct_keystrokes := 0, live_incorrect_keystrokes := 0,
             show_ui := true, next_word_index := 0,
             wpm_history := [], raw_wpm_history := [], errors_history := [],
             last_snapshot_second := none, prev_incorrect_keystrokes := 0 }
  generate_initial_words g s

/-! ### Concrete session states used by counterexamples and witnesses -/

/-- Target stream `"ab cd"` for the concrete states. -/
def baseWordStream : List Word :=
  [⟨['a', 'b'], WordState.Active⟩, ⟨['c', 'd'], WordState.Pending⟩]

/-- Fresh waiting session on the target `"ab cd"`. -/
def waitingApp : App where
  state := AppState.Waiting
  mode := Mode.Time 30
  show_ui := true
  input := []
  cursor_idx := 0
  start_time := none
  gross_char_count := 0
  total_errors_ever := 0
  processed_word_errors := []
  generated_count := 2
  scrolled_word_count := 0
  furthest_word_idx := 0
  st_correct := 0
  st_incorrect := 0
  st_extra := 0
  st_missed := 0
  acc_score_correct := 0
  acc_score_incorrect := 0
  uncorrected_errors_scrolled := 0
  live_correct_keystrokes := 0
  live_incorrect_keystrokes := 0
  final_wpm := 0
  final_raw_wpm := 0
  final_accuracy := 0
  final_time := 0
  word_stream := baseWordStream
  word_stream_string := ['a', 'b', ' ', 'c', 'd']
  terminal_width := 100
  visual_lines := [['a', 'b', ' ', 'c', 'd']]
  display_string := ['a', 'b', ' ', 'c', 'd']
  display_mask := [false, false, false, false, false]
  extra_char_count := 0
  missed_chars := []
  aligned_input := []
  next_word_index := 0
  wpm_history := []
  raw_wpm_history := []
  errors_history := []
  last_snapshot_second := none
  prev_incorrect_keystrokes := 0

/-- Running session in which the first visual line ends with one extra
character: typed `"abx "` against target `"ab cd"`, first visual line
`"abx"`. -/
def evictionApp : App :=
  { waitingApp with
      state := AppState.Running, start_time := some 0,
      input := ['a', 'b', 'x', ' '],
      aligned_input := ['a', 'b', 'x', ' '],
      display_string := ['a', 'b', 'x', ' ', 'c', 'd'],
      display_mask := [false, false, true, false, false, false],
      extra_char_count := 1, cursor_idx := 4,
      visual_lines := [['a', 'b', 'x'], ['c', 'd']],
      word_stream := [⟨['a', 'b'], WordState.Typed⟩, ⟨['c', 'd'], WordState.Active⟩] }

/-- Running session with a cleanly completed first word `"ab "` and first
visual line `"ab"`: the eviction range holds no extras and no sentinels. -/
def cleanEvictionApp : App :=
  { waitingApp with
      state := AppState.Running, start_time := some 0,
      input := ['a', 'b', ' '],
      aligned_input := ['a', 'b', ' '],
      cursor_idx := 3,
      visual_lines := [['a', 'b'], ['c', 'd']],
      word_stream := [⟨['a', 'b'], WordState.Typed⟩, ⟨['c', 'd'], WordState.Active⟩] }

/-- Session that already folded one correct character into the cumulative
counters. -/
def scrolledOnceApp : App :=
  { waitingApp with st_correct := 1, st_missed := 2, uncorrected_errors_scrolled := 2 }

/-- Generator answer used to reseed a restarted session. -/
def genInit0 : GenInit :=
  ⟨[⟨['e', 'f'], WordState.Active⟩], 1, 0⟩

/-- Session whose current word targets `"cat"`. -/
def catApp : App :=
  { waitingApp with
      word_stream := [⟨['c', 'a', 't'], WordState.Active⟩],
      word_stream_string := ['c', 'a', 't'],
      display_string := ['c', 'a', 't'],
      display_mask := [false, false, false],
      visual_lines := [['c', 'a', 't']] }

/-- Running session two seconds in, with 21 characters typed against the
2-character target word `"ab"`: the next non-space keystroke hits the
overrun limit while a snapshot second has just completed. -/
def overrunApp : App :=
  { waitingApp with
      state := AppState.Running, start_time := some 0,
      input := List.replicate 21 'x' }

/-- Running session half a second in whose input ends on a word boundary
(`"ab "`). -/
def boundaryApp : App :=
  { waitingApp with
      state := AppState.Running, start_time := some 0,
      input := ['a', 'b', ' '],
      aligned_input := ['a', 'b', ' '],
      cursor_idx := 3,
      word_stream := [⟨['a', 'b'], WordState.Typed⟩, ⟨['c', 'd'], WordState.Active⟩] }

/-- Running session in which the completed word `"don’t"` (curly
apostrophe) was typed against the target `"don't"` (straight apostrophe):
visually equal, byte-for-byte different. -/
def curlyApp : App :=
  { waitingApp with
      state := AppState.Running, start_time := some 0,
      input := ['d', 'o', 'n', '’', 't', ' '],
      aligned_input := ['d', 'o', 'n', '’', 't', ' '],
      cursor_idx := 6,
      word_stream := [⟨['d', 'o', 'n', '\'', 't'], WordState.Typed⟩,
                      ⟨['c', 'd'], WordState.Active⟩],
      word_stream_string := ['d', 'o', 'n', '\'', 't', ' ', 'c', 'd'],
      display_string := ['d', 'o', 'n', '\'', 't', ' ', 'c', 'd'],
      display_mask := List.replicate 8 false,
      visual_lines := [['d', 'o', 'n', '\'', 't', ' ', 'c', 'd']] }

/-- Running session in which the completed word `"ab"` was typed exactly. -/
def exactWordApp : App :=
  { waitingApp with
      state := AppState.Running, start_time := some 0,
      input := ['a', 'b', ' '],
      aligned_input := ['a', 'b', ' '],
      cursor_idx := 3,
      word_stream := [⟨['a', 'b'], WordState.Typed⟩, ⟨['c', 'd'], WordState.Active⟩] }

/-! ## Shared lemmas

Shape lemmas record, for each operation, which fields it can touch: the
result is the input state with only those fields replaced.  Every claim
about untouched fields follows by rewriting with the shape. -/

theorem onKeyStart_shape (now : ℚ) (s : App) :
    ∃ a b, onKeyStart now s = { s with state := a, start_time := b } := by
  unfold onKeyStart
  split
  · exact ⟨_, _, rfl⟩
  · exact ⟨s.state, s.start_time, rfl⟩

theorem push_snapshot_shape (e : ℚ) (s : App) :
    ∃ w r x p, push_snapshot e s =
      { s with wpm_history := w, raw_wpm_history := r, errors_history := x,
               prev_incorrect_keystrokes := p } := by
  unfold push_snapshot
  split
  · exact ⟨s.wpm_history, s.raw_wpm_history, s.errors_history,
      s.prev_incorrect_keystrokes, rfl⟩
  · exact ⟨_, _, _, _, rfl⟩

theorem record_snapshot_shape (now : ℚ) (s : App) :
    ∃ w r x l p, record_snapshot_if_needed now s =
      { s with wpm_history := w, raw_wpm_history := r, errors_history := x,
               last_snapshot_second := l, prev_incorrect_keystrokes := p } := by
  unfold record_snapshot_if_needed
  dsimp only
  repeat' split
  all_goals
    first
      | exact ⟨s.wpm_history, s.raw_wpm_history, s.errors_history,
          s.last_snapshot_second, s.prev_incorrect_keystrokes, rfl⟩
      | · obtain ⟨w, r, x, p, h⟩ := push_snapshot_shape _ _
          rw [h]
          exact ⟨w, r, x, _, p, rfl⟩

theorem syncS_shape (s : App) :
    ∃ d m a e c v, syncDisplayTextS s =
      { s with display_string := d, display_mask := m, aligned_input := a,
               extra_char_count := e, cursor_idx := c, visual_lines := v } := by
  unfold syncDisplayTextS recalculate_lines
  exact ⟨_, _, _, _, _, _, rfl⟩

theorem handle_space_shape (i : Nat) (w : List Char) (s : App) :
    ∃ t p m, handle_space_press i w s =
      { s with total_errors_ever := t, processed_word_errors := p,
               missed_chars := m } := by
  unfold handle_space_press
  dsimp only
  repeat' split
  all_goals
    exact ⟨_, _, _, rfl⟩

theorem update_stream_shape (s : App) :
    ∃ t, update_stream_string s = { s with word_stream_string := t } :=
  ⟨_, rfl⟩

theorem add_one_word_shape (gen : Option (List Word × Nat)) (s : App) :
    ∃ ws n g t, add_one_word gen s =
      { s with word_stream := ws, next_word_index := n, generated_count := g,
               word_stream_string := t } := by
  unfold add_one_word update_stream_string
  dsimp only
  repeat' split
  all_goals
    exact ⟨_, _, _, _, rfl⟩

theorem modifyWordState_shape (i : Nat) (st : WordState) (s : App) :
    ∃ ws, { s with word_stream := modifyWordState s.word_stream i st } =
      { s with word_stream := ws } :=
  ⟨_, rfl⟩

theorem on_word_finished_shape (gen : Option (List Word × Nat)) (s : App) :
    ∃ ws f n g t, on_word_finished gen s =
      { s with word_stream := ws, furthest_word_idx := f, next_word_index := n,
               generated_count := g, word_stream_string := t } := by
  unfold on_word_finished
  dsimp only
  repeat' split
  all_goals
    first
      | exact ⟨_, _, _, _, _, rfl⟩
      | · obtain ⟨ws, n, g, t, h⟩ := add_one_word_shape _ _
          rw [h]
          exact ⟨ws, _, n, g, t, rfl⟩

theorem end_test_shape (now : ℚ) (s : App) :
    ∃ d m fw fr fa ft w r x p, end_test now s =
      { s with state := AppState.Finished, show_ui := true,
               display_string := d, display_mask := m,
               final_wpm := fw, final_raw_wpm := fr, final_accuracy := fa,
               final_time := ft, wpm_history := w, raw_wpm_history := r,
               errors_history := x, prev_incorrect_keystrokes := p } := by
  unfold end_test
  dsimp only
  repeat' split
  all_goals
    first
      | exact ⟨_, _, _, _, _, _, _, _, _, _, rfl⟩
      | · obtain ⟨w, r, x, p, h⟩ := push_snapshot_shape _ _
          rw [h]
          exact ⟨_, _, _, _, _, _, w, r, x, p, rfl⟩

theorem check_completion_shape (now : ℚ) (s : App) :
    check_test_completion now s = s ∨
    ∃ d m fw fr fa ft w r x p, check_test_completion now s =
      { s with state := AppState.Finished, show_ui := true,
               display_string := d, display_mask := m,
               final_wpm := fw, final_raw_wpm := fr, final_accuracy := fa,
               final_time := ft, wpm_history := w, raw_wpm_history := r,
               errors_history := x, prev_incorrect_keystrokes := p } := by
  unfold check_test_completion
  dsimp only
  repeat' split
  all_goals
    first
      | exact Or.inl rfl
      | exact Or.inr (end_test_shape _ _)

/-! ### Monotonicity of the cumulative counters -/

/-- The five cumulative counters of the session never step down from `s`
to `t`. -/
def countersLE (s t : App) : Prop :=
  s.st_correct ≤ t.st_correct ∧ s.st_incorrect ≤ t.st_incorrect ∧
  s.st_extra ≤ t.st_extra ∧ s.st_missed ≤ t.st_missed ∧
  s.uncorrected_errors_scrolled ≤ t.uncorrected_errors_scrolled

theorem countersLE_refl (s : App) : countersLE s s :=
  ⟨Nat.le_refl _, Nat.le_refl _, Nat.le_refl _, Nat.le_refl _, Nat.le_refl _⟩

theorem countersLE_trans {s t u : App} (h1 : countersLE s t)
    (h2 : countersLE t u) : countersLE s u :=
  ⟨Nat.le_trans h1.1 h2.1, Nat.le_trans h1.2.1 h2.2.1,
   Nat.le_trans h1.2.2.1 h2.2.2.1, Nat.le_trans h1.2.2.2.1 h2.2.2.2.1,
   Nat.le_trans h1.2.2.2.2 h2.2.2.2.2⟩

theorem countersLE_sync (s : App) : countersLE s (syncDisplayTextS s) := by
  obtain ⟨d, m, a, e, c, v, h⟩ := syncS_shape s
  rw [h]
  exact countersLE_refl _

theorem countersLE_delete (s : App) :
    countersLE s (delete_first_visual_line s) := by
  unfold delete_first_visual_line
  dsimp only
  split
  · exact countersLE_refl _
  · repeat' split
    all_goals
      refine countersLE_trans ?_ (countersLE_sync _)
      refine ⟨?_, ?_, ?_, ?_, ?_⟩ <;> dsimp only <;> omega

theorem countersLE_scroll (s : App) :
    countersLE s (check_scroll_trigger s) := by
  unfold check_scroll_trigger
  split
  · exact countersLE_delete _
  · exact countersLE_refl _

theorem countersLE_check_completion (now : ℚ) (s : App) :
    countersLE s (check_test_completion now s) := by
  rcases check_completion_shape now s with h | ⟨d, m, fw, fr, fa, ft, w, r, x, p, h⟩ <;>
    rw [h]
  · exact countersLE_refl _
  · exact countersLE_refl _

theorem countersLE_end_test (now : ℚ) (s : App) :
    countersLE s (end_test now s) := by
  obtain ⟨d, m, fw, fr, fa, ft, w, r, x, p, h⟩ := end_test_shape now s
  rw [h]
  exact countersLE_refl _

theorem countersLE_record_snapshot (now : ℚ) (s : App) :
    countersLE s (record_snapshot_if_needed now s) := by
  obtain ⟨w, r, x, l, p, h⟩ := record_snapshot_shape now s
  rw [h]
  exact countersLE_refl _

set_option maxHeartbeats 2000000 in
theorem countersLE_onKeyCommit (c : Char) (now : ℚ)
    (gen : Option (List Word × Nat)) (s : App) :
    countersLE s (onKeyCommit c now gen s) := by
  unfold onKeyCommit
  dsimp only
  refine countersLE_trans (countersLE_trans (countersLE_trans ?_
    (countersLE_sync _)) (countersLE_scroll _)) (countersLE_check_completion _ _)
  repeat' split
  all_goals
    try (obtain ⟨t1, p1, m1, hh⟩ := handle_space_shape _ _ _; rw [hh])
  all_goals
    try (obtain ⟨ws2, f2, n2, g2, t2, hw⟩ := on_word_finished_shape _ _; rw [hw])
  all_goals
    exact ⟨Nat.le_refl _, Nat.le_refl _, Nat.le_refl _, Nat.le_refl _, Nat.le_refl _⟩

theorem countersLE_on_key (c : Char) (now : ℚ)
    (gen : Option (List Word × Nat)) (s : App) :
    countersLE s (on_key c now gen s) := by
  unfold on_key
  dsimp only
  split
  · exact countersLE_refl _
  · have h0 : countersLE s (record_snapshot_if_needed now (onKeyStart now s)) := by
      obtain ⟨a, b, h1⟩ := onKeyStart_shape now s
      rw [h1]
      obtain ⟨w, r, x, l, p, h2⟩ := record_snapshot_shape now _
      rw [h2]
      exact ⟨Nat.le_refl _, Nat.le_refl _, Nat.le_refl _, Nat.le_refl _,
        Nat.le_refl _⟩
    repeat' split
    all_goals
      first
        | exact h0
        | exact countersLE_trans h0 (countersLE_onKeyCommit _ _ _ _)

theorem countersLE_backspacePop (t : App) :
    countersLE t (backspacePop t) := by
  unfold backspacePop
  split
  · exact countersLE_refl _
  · dsimp only
    split
    all_goals
      exact ⟨Nat.le_refl _, Nat.le_refl _, Nat.le_refl _, Nat.le_refl _,
        Nat.le_refl _⟩

theorem countersLE_on_backspace (s : App) :
    countersLE s (on_backspace s) := by
  unfold on_backspace
  dsimp only
  repeat' split
  all_goals
    first
      | exact countersLE_refl _
      | (refine countersLE_trans ?_ (countersLE_backspacePop _)
         exact ⟨Nat.le_refl _, Nat.le_refl _, Nat.le_refl _, Nat.le_refl _,
           Nat.le_refl _⟩)

theorem restart_zeroes_counters (g : GenInit) (s : App) :
    (restart_test g s).st_correct = 0 ∧ (restart_test g s).st_incorrect = 0 ∧
    (restart_test g s).st_extra = 0 ∧ (restart_test g s).st_missed = 0 ∧
    (restart_test g s).uncorrected_errors_scrolled = 0 :=
  ⟨rfl, rfl, rfl, rfl, rfl⟩

theorem push_snapshot_length_pos (e : ℚ) (s : App) (he : ¬e ≤ 0) :
    (push_snapshot e s).wpm_history.length = s.wpm_history.length + 1 ∧
    (push_snapshot e s).raw_wpm_history.length = s.raw_wpm_history.length + 1 ∧
    (push_snapshot e s).errors_history.length = s.errors_history.length + 1 := by
  unfold push_snapshot
  rw [if_neg he]
  refine ⟨?_, ?_, ?_⟩ <;> simp

theorem lastFullSecond_nonneg (s : App) : 0 ≤ lastFullSecond s := by
  unfold lastFullSecond
  split
  · exact le_refl 0
  · exact Nat.cast_nonneg _

/-! ## Claim C5 -/

/-- C5, counterexample: the claim includes `restart` among the operations
across which the cumulative counters never decrease, but `restart_test`
resets them to zero — on a session with `st_correct = 1` the counter
strictly decreases across a restart. -/
theorem C5_cex_restart_decreases_counters :
    (restart_test genInit0 scrolledOnceApp).st_correct <
      scrolledOnceApp.st_correct ∧
    (restart_test genInit0 scrolledOnceApp).st_missed <
      scrolledOnceApp.st_missed := by
  decide

/-- C5, amended: the cumulative counters `st_correct`, `st_incorrect`,
`st_extra`, `st_missed` and `uncorrected_errors_scrolled` never decrease
across a keystroke, a backspace, an eviction or the end of the test;
`restart_test`, however, resets all five to zero. -/
theorem C5_counters_monotone (c : Char) (now : ℚ)
    (gen : Option (List Word × Nat)) (g : GenInit) (s : App) :
    countersLE s (on_key c now gen s) ∧
    countersLE s (on_backspace s) ∧
    countersLE s (delete_first_visual_line s) ∧
    countersLE s (end_test now s) ∧
    ((restart_test g s).st_correct = 0 ∧ (restart_test g s).st_incorrect = 0 ∧
     (restart_test g s).st_extra = 0 ∧ (restart_test g s).st_missed = 0 ∧
     (restart_test g s).uncorrected_errors_scrolled = 0) :=
  ⟨countersLE_on_key c now gen s, countersLE_on_backspace s,
   countersLE_delete s, countersLE_end_test now s,
   restart_zeroes_counters g s⟩

theorem one_le_splitSpaces_length (l : List Char) :
    1 ≤ (splitSpaces l).length := by
  induction l with
  | nil => simp [splitSpaces]
  | cons c rest ih =>
    simp only [splitSpaces]
    split
    · simp
    · split
      · rename_i heq
        rw [heq] at ih
        simp
      · simp

theorem two_le_splitSpaces_length (l : List Char) (h : l.getLast? = some ' ') :
    2 ≤ (splitSpaces l).length := by
  induction l with
  | nil => simp at h
  | cons c rest ih =>
    cases rest with
    | nil =>
      simp only [List.getLast?_singleton, Option.some.injEq] at h
      subst h
      simp [splitSpaces]
    | cons d rest' =>
      rw [List.getLast?_cons_cons] at h
      have ih2 := ih h
      simp only [splitSpaces] at ih2 ⊢
      split
      · simp only [List.length_cons]
        omega
      · split
        · rename_i heq
          rw [heq] at ih2
          simp only [List.length_cons] at ih2 ⊢
          omega
        · rename_i heq
          have h1 := one_le_splitSpaces_length (d :: rest')
          simp only [splitSpaces] at h1
          rw [heq] at h1
          simp at h1

/-! ## Claim C8 -/

/-- C8 (confirmed): at session end, `end_test` appends exactly one final
snapshot to each of the three history series if and only if the elapsed
duration minus the time of the last recorded integer-second snapshot
(zero when none was recorded) is at least 0.495 seconds; otherwise all
three series are left untouched. -/
theorem C8_final_snapshot (now : ℚ) (s : App) :
    (end_test now s).wpm_history.length = s.wpm_history.length +
      (if (0.495 : ℚ) ≤ endTestDuration now s - lastFullSecond s then 1 else 0) ∧
    (end_test now s).raw_wpm_history.length = s.raw_wpm_history.length +
      (if (0.495 : ℚ) ≤ endTestDuration now s - lastFullSecond s then 1 else 0) ∧
    (end_test now s).errors_history.length = s.errors_history.length +
      (if (0.495 : ℚ) ≤ endTestDuration now s - lastFullSecond s then 1 else 0) := by
  have hl : 0 ≤ lastFullSecond s := lastFullSecond_nonneg s
  unfold end_test
  dsimp only
  by_cases hc : (0.495 : ℚ) ≤ endTestDuration now s - lastFullSecond s
  · simp only [if_pos hc]
    have hpos : ¬endTestDuration now s ≤ 0 := by intro h0; linarith
    repeat' split
    all_goals
      obtain ⟨h1, h2, h3⟩ :=
        push_snapshot_length_pos (endTestDuration now s) _ hpos
      exact ⟨h1, h2, h3⟩
  · simp only [if_neg hc]
    repeat' split
    all_goals exact ⟨rfl, rfl, rfl⟩

theorem backspacePop_input (t : App) :
    (backspacePop t).input = t.input.dropLast := by
  unfold backspacePop
  split
  · rename_i heq
    rw [List.getLast?_eq_none_iff] at heq
    rw [heq]
    rfl
  · dsimp only
    split
    all_goals rfl

/-! ## Claim C10 -/

theorem backspace_gate_spec (s : App) (w : Word)
    (hf : s.state ≠ AppState.Finished)
    (hsp : s.input.getLast? = some ' ')
    (hw : s.word_stream.get? (lastCompletedIdx s.input) = some w) :
    (typedLastWord s.input = w.text → on_backspace s = s) ∧
    (typedLastWord s.input ≠ w.text →
      (on_backspace s).input = s.input.dropLast) := by
  have h2 := two_le_splitSpaces_length s.input hsp
  unfold on_backspace
  dsimp only
  rw [if_neg (by simp [hf])]
  rw [hsp, hw]
  simp only [beq_self_eq_true, Bool.true_and, ge_iff_le, decide_eq_true_eq, h2,
    if_true]
  constructor
  · intro heq
    rw [if_pos heq]
  · intro hne
    rw [if_neg hne]
    rw [backspacePop_input]
    repeat' split
    all_goals rfl

/-- C10 (confirmed): with the input ending in a space and a target word
present at the last completed index, `on_backspace` is a complete no-op
when the typed word is byte-for-byte identical to the target's text, and
otherwise — even when the two words differ only in a visually-equivalent
codepoint — it proceeds and shortens the raw input by exactly one
character. -/
theorem C10_backspace_exact_word_gate (s : App) (w : Word)
    (hf : s.state ≠ AppState.Finished)
    (hsp : s.input.getLast? = some ' ')
    (hw : s.word_stream.get? (lastCompletedIdx s.input) = some w) :
    (typedLastWord s.input = w.text → on_backspace s = s) ∧
    (typedLastWord s.input ≠ w.text →
      (on_backspace s).input = s.input.dropLast) :=
  backspace_gate_spec s w hf hsp hw

/-- C10, witness: on the concrete session that typed `"ab "` exactly,
backspace is a no-op; on the concrete session that typed `"don’t "`
against the target `"don't"` (raw-unequal, visually equal), backspace
proceeds and shortens the input by one character. -/
theorem C10_witness :
    on_backspace exactWordApp = exactWordApp ∧
    (on_backspace curlyApp).input = curlyApp.input.dropLast :=
  ⟨(C10_backspace_exact_word_gate exactWordApp ⟨['a', 'b'], WordState.Typed⟩
      (by decide) (by decide) (by decide)).1 (by decide),
   (C10_backspace_exact_word_gate curlyApp ⟨['d', 'o', 'n', '\'', 't'], WordState.Typed⟩
      (by decide) (by decide) (by decide)).2 (by decide)⟩

theorem processed_contains_of_mem {l : List Nat} {i : Nat} (h : i ∈ l) :
    l.contains i = true := by
  simp only [List.contains_iff_exists_mem_beq]
  exact ⟨i, h, by simp⟩

theorem contains_eq_decide_mem (l : List Nat) (i : Nat) :
    l.contains i = decide (i ∈ l) := by
  by_cases h : i ∈ l
  · simp [processed_contains_of_mem h, h]
  · simp only [h, decide_False]
    rw [Bool.eq_false_iff]
    intro hc
    rcases List.contains_iff_exists_mem_beq.mp hc with ⟨b, hb, hbeq⟩
    have hib : i = b := by simpa using hbeq
    exact h (by rw [hib]; exact hb)

/-! ## Claim C6 -/

/-- C6, counterexample: the claim asserts that the word index enters
`processed_word_errors` after its first finalization; on the code, an
error-free first finalization (typed `"cat"` against target `"cat"`)
inserts nothing, and a later space press at the same index (after an
erroneous retype `"cax"`) does add a structural penalty. -/
theorem C6_cex_first_finalization_not_inserted :
    0 ∉ (handle_space_press 0 ['c', 'a', 't'] catApp).processed_word_errors ∧
    (handle_space_press 0 ['c', 'a', 'x']
        (handle_space_press 0 ['c', 'a', 't'] catApp)).total_errors_ever =
      (handle_space_press 0 ['c', 'a', 't'] catApp).total_errors_ever + 1 := by
  decide

/-- C6, amended: a structural word charge happens only at an index not yet
in `processed_word_errors`, and any finalization that does charge inserts
that index; hence a space press at an index already in the set never
changes `total_errors_ever` (nor the set), and the structural error of a
word index is charged at most once. -/
theorem C6_word_error_charge_gated (s : App) (idx : Nat) (w : List Char) :
    (idx ∈ s.processed_word_errors →
      (handle_space_press idx w s).total_errors_ever = s.total_errors_ever ∧
      (handle_space_press idx w s).processed_word_errors =
        s.processed_word_errors) ∧
    ((handle_space_press idx w s).total_errors_ever ≠ s.total_errors_ever →
      idx ∉ s.processed_word_errors ∧
      idx ∈ (handle_space_press idx w s).processed_word_errors) ∧
    (idx ∉ s.processed_word_errors →
      (handle_space_press idx w s).total_errors_ever = s.total_errors_ever +
        ((if words_visually_equal w
            (s.word_stream.getD idx ⟨[], WordState.Pending⟩).text then 0 else 1) +
          (w.length -
            (s.word_stream.getD idx ⟨[], WordState.Pending⟩).text.length))) := by
  unfold handle_space_press
  dsimp only
  simp only [contains_eq_decide_mem]
  by_cases hm : idx ∈ s.processed_word_errors
  · simp only [hm, decide_True, Bool.not_true, Bool.false_and,
      Bool.false_eq_true, if_false]
    refine ⟨?_, ?_, ?_⟩
    · intro _
      split <;> exact ⟨rfl, rfl⟩
    · intro hne
      exfalso
      apply hne
      split <;> rfl
    · intro hnm
      exact absurd trivial hnm
  · simp only [hm, decide_False, Bool.not_false, Bool.true_and]
    refine ⟨?_, ?_, ?_⟩
    · intro hmem
      exact hmem.elim
    · intro hne
      refine ⟨not_false, ?_⟩
      split
      all_goals split
      all_goals
        first
          | exact List.mem_cons_self _ _
          | (exfalso
             apply hne
             rename_i hA
             rw [Bool.not_eq_true] at hA
             simp only [hA, Bool.false_eq_true, if_false]
             split <;> rfl)
    · intro _
      split
      all_goals split
      all_goals
        first
          | (rename_i hA
             rw [Bool.not_eq_true, Bool.or_eq_false_iff] at hA
             have hw : words_visually_equal w
                 (s.word_stream.getD idx ⟨[], WordState.Pending⟩).text = true := by
               simpa using hA.1
             have hz : ¬(0 < w.length -
                 (s.word_stream.getD idx ⟨[], WordState.Pending⟩).text.length) := by
               simpa using hA.2
             simp only [hw, if_true]
             omega)
          | (rename_i hA
             cases hwv : words_visually_equal w
                 (s.word_stream.getD idx ⟨[], WordState.Pending⟩).text <;>
               (simp [hwv]; try omega))

/-- C6, witness: at an index already in `processed_word_errors` a space
press with a wrong word leaves `total_errors_ever` unchanged; at a fresh
index the charging press records the index in the set. -/
theorem C6_witness :
    (handle_space_press 0 ['c', 'a', 'x']
        { catApp with processed_word_errors := [0] }).total_errors_ever =
      ({ catApp with processed_word_errors := [0] } : App).total_errors_ever ∧
    (0 ∉ catApp.processed_word_errors ∧
     0 ∈ (handle_space_press 0 ['c', 'a', 'x'] catApp).processed_word_errors) :=
  ⟨((C6_word_error_charge_gated { catApp with processed_word_errors := [0] }
      0 ['c', 'a', 'x']).1 (by decide)).1,
   (C6_word_error_charge_gated catApp 0 ['c', 'a', 'x']).2.1 (by decide)⟩

/-! ## Claim C1 -/

theorem syncLoop_mask_display_length (missed : List (Nat × Nat))
    (clean : List Char) :
    ∀ input wi, (syncLoop missed clean input wi).mask.length =
      (syncLoop missed clean input wi).display.length := by
  induction clean with
  | nil => intro input wi; rfl
  | cons c cs ih =>
    intro input wi
    simp only [syncLoop]
    split
    · split
      · dsimp only
        simp [ih]
      · dsimp only
        simp [ih]
    · split
      · split
        · dsimp only
          simp [ih]
        · dsimp only
          simp [ih]
      · dsimp only
        simp [ih]

theorem syncLoop_aligned_nil (missed : List (Nat × Nat)) (clean : List Char) :
    ∀ wi, (syncLoop missed clean [] wi).aligned = [] := by
  induction clean with
  | nil => intro wi; rfl
  | cons c cs ih =>
    intro wi
    simp only [syncLoop]
    split
    · simp [List.takeWhile_nil, List.dropWhile_nil, ih]
    · simp [ih]

/-- C1, counterexample: in the reachable fresh-session state (empty input,
empty missed map) against the nonempty target `"ab"`, the alignment
builder leaves `aligned_input` empty while the display pair has length 2 —
so `len(aligned_input) = len(display_string)` fails even though the input
is empty. -/
theorem C1_cex_empty_input_lengths_differ :
    (sync_display_text ['a', 'b'] [] []).aligned.length ≠
      (sync_display_text ['a', 'b'] [] []).display.length := by
  decide

/-- C1, amended: after every run of the alignment builder the mask length
always equals the display character count, but `aligned_input` covers only
the consumed input — in particular it is empty for empty input — so the
claimed equality of `aligned_input.len()` with the display length fails
whenever the target extends past the typed region. -/
theorem C1_display_mask_aligned_lengths (clean input : List Char)
    (missed : List (Nat × Nat)) :
    (sync_display_text clean input missed).mask.length =
      (sync_display_text clean input missed).display.length ∧
    (input = [] → (sync_display_text clean input missed).aligned = []) := by
  constructor
  · exact syncLoop_mask_display_length missed clean input 0
  · intro h
    subst h
    exact syncLoop_aligned_nil missed clean 0

/-- C1, witness: the amended statement applied to the fresh-session state
of the counterexample. -/
theorem C1_witness :
    (sync_display_text ['a', 'b'] [] []).mask.length =
      (sync_display_text ['a', 'b'] [] []).display.length ∧
    (sync_display_text ['a', 'b'] [] []).aligned = [] :=
  ⟨(C1_display_mask_aligned_lengths ['a', 'b'] [] []).1,
   (C1_display_mask_aligned_lengths ['a', 'b'] [] []).2 rfl⟩

/-! ## Claim C7 -/

theorem onKey_finished_phases (now : ℚ) (s : App)
    (hs : s.state = AppState.Finished) :
    record_snapshot_if_needed now (onKeyStart now s) = s := by
  rw [show onKeyStart now s = s from by
    unfold onKeyStart; rw [if_neg (by simp [hs])]]
  unfold record_snapshot_if_needed
  rw [if_pos (by simp [hs])]

theorem onKey_overrun_eq (s : App) (c : Char) (now : ℚ)
    (gen : Option (List Word × Nat))
    (hidx : currentWordIdx s.input < s.word_stream.length)
    (hlimit : (s.word_stream.getD (currentWordIdx s.input)
        ⟨[], WordState.Pending⟩).text.length + 19 ≤
      (currentUserWord s.input).length)
    (hc : c ≠ ' ') :
    on_key c now gen s = record_snapshot_if_needed now (onKeyStart now s) := by
  obtain ⟨a, b, h1⟩ := onKeyStart_shape now s
  obtain ⟨w, r, x, l, p, h2⟩ := record_snapshot_shape now (onKeyStart now s)
  rw [h1] at h2
  unfold on_key
  dsimp only
  split
  · rename_i hfin
    rw [onKey_finished_phases now s (by simpa using hfin)]
  · rw [h1, h2]
    dsimp only
    rw [if_pos hidx]
    rw [if_neg (by simp [hc])]
    rw [if_pos (by
      simp only [Bool.and_eq_true, decide_eq_true_eq, ge_iff_le, bne_iff_ne]
      exact ⟨hlimit, hc⟩)]

/-- C7, counterexample: a non-space keystroke at the overrun limit is
rejected, but not before the per-second snapshot bookkeeping has run — on
the concrete overrun session two seconds in, the rejected keystroke leaves
the input untouched yet appends a WPM-history point, so session state does
change. -/
theorem C7_cex_snapshot_recorded_on_rejected_key :
    (overrunApp.word_stream.getD (currentWordIdx overrunApp.input)
        ⟨[], WordState.Pending⟩).text.length + 19 ≤
      (currentUserWord overrunApp.input).length ∧
    (on_key 'y' 2 none overrunApp).input = overrunApp.input ∧
    (on_key 'y' 2 none overrunApp).wpm_history ≠ overrunApp.wpm_history := by
  have hphase := onKey_overrun_eq overrunApp 'y' 2 none (by decide) (by decide)
    (by decide)
  have hstart : onKeyStart 2 overrunApp = overrunApp := by
    unfold onKeyStart
    rw [if_neg (by decide)]
  have hfl : ((2 : ℚ)).floor = 2 := by
    unfold Rat.floor
    norm_num
  have hsec : snapshotSecond 2 0 = 2 := by
    unfold snapshotSecond
    rw [sub_zero, hfl]
    decide
  have hrec : record_snapshot_if_needed 2 overrunApp =
      push_snapshot ((2 : Nat) : ℚ)
        { overrunApp with last_snapshot_second := some 2 } := by
    unfold record_snapshot_if_needed
    rw [if_neg (by decide)]
    rw [show overrunApp.start_time = some 0 from rfl]
    dsimp only
    rw [hsec]
    rw [if_pos (by decide)]
    rfl
  rw [hphase, hstart, hrec]
  unfold push_snapshot
  rw [if_neg (by norm_num)]
  refine ⟨by decide, rfl, ?_⟩
  simp

/-- C7, amended: when the current word already holds `target length + 19`
typed characters, a non-space keystroke leaves the input, the gross and
live keystroke counters, the lifetime error tally and all three alignment
buffers unchanged — the whole effect of `on_key` is the Waiting→Running
transition plus the per-second snapshot bookkeeping, which run before the
overrun check. -/
theorem C7_overrun_rejected (s : App) (c : Char) (now : ℚ)
    (gen : Option (List Word × Nat))
    (hidx : currentWordIdx s.input < s.word_stream.length)
    (hlimit : (s.word_stream.getD (currentWordIdx s.input)
        ⟨[], WordState.Pending⟩).text.length + 19 ≤
      (currentUserWord s.input).length)
    (hc : c ≠ ' ') :
    on_key c now gen s = record_snapshot_if_needed now (onKeyStart now s) ∧
    ((on_key c now gen s).input = s.input ∧
     (on_key c now gen s).gross_char_count = s.gross_char_count ∧
     (on_key c now gen s).live_correct_keystrokes = s.live_correct_keystrokes ∧
     (on_key c now gen s).live_incorrect_keystrokes = s.live_incorrect_keystrokes ∧
     (on_key c now gen s).total_errors_ever = s.total_errors_ever ∧
     (on_key c now gen s).display_string = s.display_string ∧
     (on_key c now gen s).display_mask = s.display_mask ∧
     (on_key c now gen s).aligned_input = s.aligned_input) := by
  obtain ⟨a, b, h1⟩ := onKeyStart_shape now s
  obtain ⟨w, r, x, l, p, h2⟩ := record_snapshot_shape now (onKeyStart now s)
  rw [h1] at h2
  have hmain := onKey_overrun_eq s c now gen hidx hlimit hc
  refine ⟨hmain, ?_⟩
  rw [hmain, h1, h2]
  exact ⟨rfl, rfl, rfl, rfl, rfl, rfl, rfl, rfl⟩

/-- C7, witness: the amended statement applied to the concrete overrun
session of the counterexample. -/
theorem C7_witness :
    on_key 'y' 2 none overrunApp =
      record_snapshot_if_needed 2 (onKeyStart 2 overrunApp) :=
  (C7_overrun_rejected overrunApp 'y' 2 none (by decide) (by decide)
    (by decide)).1

/-! ## Claim C9 -/

theorem onKey_space_empty_eq (s : App) (now : ℚ)
    (gen : Option (List Word × Nat))
    (hidx : currentWordIdx s.input < s.word_stream.length)
    (hempty : currentUserWord s.input = []) :
    on_key ' ' now gen s = record_snapshot_if_needed now (onKeyStart now s) := by
  obtain ⟨a, b, h1⟩ := onKeyStart_shape now s
  obtain ⟨w, r, x, l, p, h2⟩ := record_snapshot_shape now (onKeyStart now s)
  rw [h1] at h2
  unfold on_key
  dsimp only
  split
  · rename_i hfin
    rw [onKey_finished_phases now s (by simpa using hfin)]
  · rw [h1, h2]
    dsimp only
    rw [if_pos hidx]
    rw [if_pos (by simp [hempty])]

/-- C9, counterexample: pressing space on a waiting session with empty
input is not a complete no-op — before the early return, `on_key` starts
the clock and flips the session to `Running`. -/
theorem C9_cex_space_starts_clock :
    waitingApp.state = AppState.Waiting ∧
    (on_key ' ' 0 none waitingApp).state = AppState.Running ∧
    (on_key ' ' 0 none waitingApp).start_time = some 0 := by
  have hphase := onKey_space_empty_eq waitingApp 0 none (by decide) (by decide)
  have hstart : onKeyStart 0 waitingApp =
      { waitingApp with start_time := some 0, state := AppState.Running } := by
    unfold onKeyStart
    rw [if_pos (by decide)]
  obtain ⟨w, r, x, l, p, h2⟩ := record_snapshot_shape 0 (onKeyStart 0 waitingApp)
  rw [hstart] at h2
  rw [hphase, hstart, h2]
  exact ⟨rfl, rfl, rfl⟩

/-- C9, amended: a space keystroke while the current word is empty leaves
the raw input, the gross count, the live keystroke counters, the lifetime
error tally, the alignment buffers and the word-keyed maps unchanged and
counts as neither a correct nor an incorrect keystroke; the whole effect
of `on_key` is the Waiting→Running transition plus the per-second
snapshot bookkeeping, which run before the early return. -/
theorem C9_empty_word_space_rejected (s : App) (now : ℚ)
    (gen : Option (List Word × Nat))
    (hidx : currentWordIdx s.input < s.word_stream.length)
    (hempty : currentUserWord s.input = []) :
    on_key ' ' now gen s = record_snapshot_if_needed now (onKeyStart now s) ∧
    ((on_key ' ' now gen s).input = s.input ∧
     (on_key ' ' now gen s).gross_char_count = s.gross_char_count ∧
     (on_key ' ' now gen s).live_correct_keystrokes = s.live_correct_keystrokes ∧
     (on_key ' ' now gen s).live_incorrect_keystrokes = s.live_incorrect_keystrokes ∧
     (on_key ' ' now gen s).total_errors_ever = s.total_errors_ever ∧
     (on_key ' ' now gen s).display_string = s.display_string ∧
     (on_key ' ' now gen s).display_mask = s.display_mask ∧
     (on_key ' ' now gen s).aligned_input = s.aligned_input ∧
     (on_key ' ' now gen s).missed_chars = s.missed_chars ∧
     (on_key ' ' now gen s).processed_word_errors = s.processed_word_errors) := by
  obtain ⟨a, b, h1⟩ := onKeyStart_shape now s
  obtain ⟨w, r, x, l, p, h2⟩ := record_snapshot_shape now (onKeyStart now s)
  rw [h1] at h2
  have hmain := onKey_space_empty_eq s now gen hidx hempty
  refine ⟨hmain, ?_⟩
  rw [hmain, h1, h2]
  exact ⟨rfl, rfl, rfl, rfl, rfl, rfl, rfl, rfl, rfl, rfl⟩

/-- C9, witness: the amended statement applied to a concrete running
session whose input ends on a word boundary. -/
theorem C9_witness :
    (on_key ' ' (1 / 2) none boundaryApp).input = boundaryApp.input :=
  ((C9_empty_word_space_rejected boundaryApp (1 / 2) none (by decide)
      (by decide)).2).1

/-! ## Claim C4 -/

theorem countP_not_add {α : Type} (p : α → Bool) (l : List α) :
    l.countP p + l.countP (fun a => !p a) = l.length := by
  induction l with
  | nil => rfl
  | cons a l ih =>
    by_cases h : p a = true
    · simp [List.countP_cons, h]
      omega
    · rw [Bool.not_eq_true] at h
      simp [List.countP_cons, h]
      omega

/-- C4, counterexample: on a concrete session whose evicted line ends in
one extra character, `delete_first_visual_line` drains four characters
from the front of the raw input (the non-sentinel aligned characters,
extras included) but shortens the target backing string by only three (the
non-extra display positions) — the two counts the claim equates differ. -/
theorem C4_cex_drain_counts_differ :
    evictionApp.input.length - (delete_first_visual_line evictionApp).input.length = 4 ∧
    evictionApp.word_stream_string.length -
      (delete_first_visual_line evictionApp).word_stream_string.length = 3 := by
  decide

/-- C4, amended: each eviction drains from the raw input exactly the
number of non-sentinel characters of the evicted aligned slice (real typed
characters, extras included), and shortens the target backing string by
the number of non-extra display positions evicted; these two counts
coincide exactly when the evicted slice holds as many extra positions as
missed sentinels — in particular when it holds none — but differ in
general. -/
theorem C4_eviction_drain_counts (s : App)
    (h0 : s.visual_lines.isEmpty = false)
    (h1 : evictVisualCount s ≤ s.aligned_input.length)
    (h2 : evictVisualCount s ≤ s.display_mask.length)
    (h3 : (s.display_mask.take (evictVisualCount s)).countP (fun m => m) =
      (evictAlignedChunk s).countP (fun c => c == nullChar)) :
    (delete_first_visual_line s).input = s.input.drop (evictCleanCount s) ∧
    (delete_first_visual_line s).word_stream_string =
      s.word_stream_string.drop (evictRealCount s) ∧
    evictCleanCount s = evictRealCount s := by
  have hchunklen : (evictAlignedChunk s).length = evictVisualCount s := by
    unfold evictAlignedChunk
    rw [Nat.min_eq_left h1, List.length_take, Nat.min_eq_left h1]
  have hmasklen : (s.display_mask.take (evictVisualCount s)).length =
      evictVisualCount s := by
    rw [List.length_take, Nat.min_eq_left h2]
  have hclean : evictCleanCount s +
      (evictAlignedChunk s).countP (fun c => c == nullChar) =
        evictVisualCount s := by
    have := countP_not_add (fun c : Char => c == nullChar) (evictAlignedChunk s)
    rw [hchunklen] at this
    unfold evictCleanCount
    simp only [bne]
    omega
  have hreal : evictRealCount s +
      (s.display_mask.take (evictVisualCount s)).countP (fun m => m) =
        evictVisualCount s := by
    have := countP_not_add (fun m : Bool => m) (s.display_mask.take (evictVisualCount s))
    rw [hmasklen] at this
    unfold evictRealCount
    omega
  refine ⟨?_, ?_, ?_⟩
  · unfold delete_first_visual_line
    rw [if_neg (by simp [h0])]
    dsimp only
    repeat' split
    all_goals rfl
  · unfold delete_first_visual_line
    rw [if_neg (by simp [h0])]
    dsimp only
    repeat' split
    all_goals
      first
        | rfl
        | (rename_i hr
           have hz : evictRealCount s = 0 := by omega
           rw [hz, List.drop_zero]
           rfl)
  · omega

/-- C4, witness: the amended statement applied to a concrete session whose
evicted line `"ab "` holds no extras and no sentinels, where the two drain
counts do coincide. -/
theorem C4_witness :
    (delete_first_visual_line cleanEvictionApp).input =
      cleanEvictionApp.input.drop (evictCleanCount cleanEvictionApp) ∧
    evictCleanCount cleanEvictionApp = evictRealCount cleanEvictionApp :=
  ⟨(C4_eviction_drain_counts cleanEvictionApp (by decide) (by decide)
      (by decide) (by decide)).1,
   (C4_eviction_drain_counts cleanEvictionApp (by decide) (by decide)
      (by decide) (by decide)).2.2⟩

/-! ## Claim C3 -/

/-- C3, counterexample: backspace gating is a typed-vs-target comparison,
and it uses raw equality — on the concrete session that typed `"don’t "`
(curly apostrophe) against `"don't"` (straight apostrophe), the typed word
is visually equal to the target yet `on_backspace` does not treat it as
matched: the backspace proceeds and mutates the input. -/
theorem C3_cex_backspace_uses_raw_equality :
    words_visually_equal ['d', 'o', 'n', '’', 't'] ['d', 'o', 'n', '\'', 't'] = true ∧
    (['d', 'o', 'n', '’', 't'] : List Char) ≠ ['d', 'o', 'n', '\'', 't'] ∧
    (on_backspace curlyApp).input ≠ curlyApp.input := by
  decide

/-- C3, amended: per-character scoring and live keystroke correctness use
`are_characters_visually_equal`, with the space keystroke checked by
word-level visual equality; but the backspace gate of `on_backspace` and
the final-word check of `check_test_completion` compare typed against
target with raw (codepoint) equality: a visually-equal but raw-unequal
word does not block backspace and does not complete the test. -/
theorem C3_visual_vs_raw_comparisons :
    (∀ (ws : List Word) (input : List Char) (c : Char),
      currentWordIdx input < ws.length → c ≠ ' ' →
      (currentUserWord input).length <
        (ws.getD (currentWordIdx input) ⟨[], WordState.Pending⟩).text.length →
      is_keystroke_correct c ws input =
        are_characters_visually_equal c
          ((ws.getD (currentWordIdx input) ⟨[], WordState.Pending⟩).text.getD
            (currentUserWord input).length nullChar)) ∧
    (∀ (ws : List Word) (input : List Char),
      currentWordIdx input < ws.length →
      is_keystroke_correct ' ' ws input =
        words_visually_equal (currentUserWord input)
          (ws.getD (currentWordIdx input) ⟨[], WordState.Pending⟩).text) ∧
    (∀ (s : App) (w : Word),
      s.state ≠ AppState.Finished →
      s.input.getLast? = some ' ' →
      s.word_stream.get? (lastCompletedIdx s.input) = some w →
      words_visually_equal (typedLastWord s.input) w.text = true →
      typedLastWord s.input ≠ w.text →
      (on_backspace s).input = s.input.dropLast) ∧
    (∀ (now : ℚ) (s : App) (n : Nat) (lt : List Char),
      s.mode = Mode.Words n →
      (splitSpaces s.word_stream_string).getLast? = some lt →
      (splitSpaces s.input).getD
          ((splitSpaces s.word_stream_string).length - 1) [] ≠ lt →
      check_test_completion now s = s) := by
  refine ⟨?_, ?_, ?_, ?_⟩
  · intro ws input c hidx hc hlt
    unfold is_keystroke_correct
    rw [if_pos hidx]
    dsimp only
    rw [if_neg (by simp [hc])]
    rw [if_pos hlt]
  · intro ws input hidx
    unfold is_keystroke_correct
    rw [if_pos hidx]
    dsimp only
    rw [if_pos (by simp)]
  · intro s w hf hsp hw _ hne
    exact (backspace_gate_spec s w hf hsp hw).2 hne
  · intro now s n lt hmode hlast hne
    unfold check_test_completion
    rw [hmode]
    dsimp only
    split
    · rfl
    · rw [hlast]
      dsimp only
      rw [if_neg hne]

/-- C3, witness: the amended statement applied at concrete inputs — a
visually-equal apostrophe keystroke counts as correct, while the same
visually-equal word neither blocks backspace (the input shortens) nor
completes the test. -/
theorem C3_witness :
    is_keystroke_correct '’' [⟨['d', 'o', 'n', '\'', 't'], WordState.Active⟩]
        ['d', 'o', 'n'] =
      are_characters_visually_equal '’' '\'' ∧
    (on_backspace curlyApp).input = curlyApp.input.dropLast :=
  ⟨(C3_visual_vs_raw_comparisons).1 [⟨['d', 'o', 'n', '\'', 't'], WordState.Active⟩]
      ['d', 'o', 'n'] '’' (by decide) (by decide) (by decide),
   (C3_visual_vs_raw_comparisons).2.2.1 curlyApp
      ⟨['d', 'o', 'n', '\'', 't'], WordState.Typed⟩ (by decide) (by decide)
      (by decide) (by decide) (by decide)⟩

/-! ## Claim C2 -/

theorem statsAdd_zero_left (a : CharStats) : statsAdd zeroStats a = a := by
  cases a
  simp [statsAdd, zeroStats]

theorem statsAdd_zero_right (a : CharStats) : statsAdd a zeroStats = a := by
  cases a
  simp [statsAdd, zeroStats]

theorem statsAdd_assoc (a b c : CharStats) :
    statsAdd (statsAdd a b) c = statsAdd a (statsAdd b c) := by
  cases a
  cases b
  cases c
  simp [statsAdd, add_assoc]

theorem foldl_statsAdd_shift {α : Type} (g : α → CharStats) (l : List α) :
    ∀ acc : CharStats,
      l.foldl (fun a x => statsAdd a (g x)) acc =
        statsAdd acc (l.foldl (fun a x => statsAdd a (g x)) zeroStats) := by
  induction l with
  | nil =>
    intro acc
    simp only [List.foldl_nil]
    rw [statsAdd_zero_right]
  | cons p l ih =>
    intro acc
    simp only [List.foldl_cons]
    rw [ih (statsAdd acc (g p)), ih (statsAdd zeroStats (g p)),
      statsAdd_zero_left, statsAdd_assoc]

theorem countP_posFault_split (w : List SlicePos) :
    w.countP posFault = w.countP specIsExtra + w.countP specIsMissed +
      w.countP specIsIncorrect := by
  induction w with
  | nil => rfl
  | cons p w ih =>
    simp only [List.countP_cons, ih]
    cases hp : p.is_extra <;> by_cases hq : p.typed = nullChar <;>
      cases hv : are_characters_visually_equal p.typed p.target <;>
      simp [posFault, specIsExtra, specIsMissed, specIsIncorrect, hp, hq, hv] <;>
      omega

theorem any_posFault_eq_specWordFault (w : List SlicePos) :
    w.any posFault = specWordFault w := by
  unfold specWordFault
  rw [← countP_posFault_split]
  cases h : w.any posFault
  · rw [List.any_eq_false] at h
    have hz : w.countP posFault = 0 := by
      rw [List.countP_eq_zero]
      exact h
    rw [hz]
    rfl
  · rw [List.any_eq_true] at h
    have hp : 0 < w.countP posFault := List.countP_pos_iff.mpr h
    have : (w.countP posFault == 0) = false := by
      rw [beq_eq_false_iff_ne]
      omega
    rw [this]
    rfl

theorem foldl_posDelta_eq (b : Bool) (w : List SlicePos) :
    w.foldl (fun acc p => statsAdd acc (posDelta b p)) zeroStats =
      ⟨-(w.countP specIsMissed : Int) - (w.countP specIsIncorrect : Int),
       (w.countP specIsExtra : Int) + (w.countP specIsIncorrect : Int),
       if b then 0 else w.countP specIsMatch,
       w.countP specIsIncorrect, w.countP specIsExtra,
       w.countP specIsMissed⟩ := by
  induction w with
  | nil => cases b <;> rfl
  | cons p w ih =>
    rw [List.foldl_cons, foldl_statsAdd_shift, ih, statsAdd_zero_left]
    cases hp : p.is_extra <;> by_cases hq : p.typed = nullChar <;>
      cases hv : are_characters_visually_equal p.typed p.target <;> cases b <;>
      simp [posDelta, specIsExtra, specIsMissed, specIsIncorrect, specIsMatch,
        statsAdd, zeroStats, List.countP_cons, hp, hq, hv,
        CharStats.mk.injEq] <;>
      omega

theorem wordStats_eq_spec (w : List SlicePos) (hasSep : Bool) :
    wordStats w hasSep = specWordStats w hasSep := by
  unfold wordStats specWordStats
  dsimp only
  rw [any_posFault_eq_specWordFault, foldl_posDelta_eq]
  cases hasSep <;> cases hb : specWordFault w <;>
    simp [sepDelta, statsAdd, zeroStats, CharStats.mk.injEq, hb]

theorem dropWhile_length_le {α : Type} (p : α → Bool) (l : List α) :
    (l.dropWhile p).length ≤ l.length := by
  induction l with
  | nil => simp [List.dropWhile]
  | cons a l ih =>
    rw [List.dropWhile_cons]
    split
    · exact Nat.le_succ_of_le ih
    · exact Nat.le_refl _

theorem statsLoopF_eq_spec (fuel : Nat) :
    ∀ ps : List SlicePos, ps.length < fuel →
      statsLoopF fuel ps =
        (specSplitWordsF fuel ps).foldl
          (fun acc wp => statsAdd acc (specWordStats wp.1 wp.2)) zeroStats := by
  induction fuel with
  | zero =>
    intro ps h
    omega
  | succ fuel ih =>
    intro ps hlen
    simp only [statsLoopF, specSplitWordsF]
    rcases hd : ps.dropWhile (fun p => !isWordSep p) with _ | ⟨a, rest⟩ <;>
      simp only [hd]
    · rw [List.foldl_cons, List.foldl_nil, statsAdd_zero_left,
        wordStats_eq_spec]
    · have hrest : rest.length < fuel := by
        have := dropWhile_length_le (fun p => !isWordSep p) ps
        rw [hd] at this
        simp only [List.length_cons] at this
        omega
      rw [List.foldl_cons, foldl_statsAdd_shift, statsAdd_zero_left,
        wordStats_eq_spec, ih rest hrest]

/-- C2 (confirmed): the slice scorer classifies every position inside each
word (a maximal run bounded by non-extra space characters) exactly as the
claim states.  The whole output of `calculate_custom_stats_for_slice`
equals the signed-correct base (one point per non-extra mask entry) plus,
over the words of the slice, the claim-side counts: each extra position
contributes one raw extra and one signed incorrect; each missing-sentinel
position one raw missed and minus one signed correct; each
visually-unequal position one raw incorrect, minus one signed correct and
one signed incorrect; matching positions contribute raw correct only when
no position of the word is extra, a sentinel or visually unequal, and the
word's present trailing separator contributes one raw correct exactly when
the word is fault-free (else one signed unit moves from correct to
incorrect). -/
theorem C2_word_scoring_characterization (input_chars display_str : List Char)
    (mask : List Bool) :
    calculate_custom_stats_for_slice input_chars display_str mask =
      statsAdd ⟨(mask.countP (fun m => !m) : Int), 0, 0, 0, 0, 0⟩
        ((specSplitWords (slicePositions display_str mask input_chars)).foldl
          (fun acc wp => statsAdd acc (specWordStats wp.1 wp.2)) zeroStats) := by
  unfold calculate_custom_stats_for_slice statsLoop specSplitWords
  rw [statsLoopF_eq_spec _ _ (Nat.lt_succ_self _)]

end Typa
